import Mathlib

/-!
# Shallow embedding of the auditorium seat-booking server

This file embeds the seat-allocation core of the Express/Mongoose server:

* `server/models/Seat.js` and `server/models/Booking.js` (the two Mongoose
  schemas) become the structures `Seat` and `Booking`; a Mongo collection is
  a list of documents in natural (insertion) order, gathered in `DB`.
* `server/routes/seats.js` gives `rowToType`, `initializeInventory`
  (POST /init), `occupySeat` (PATCH /:label/occupy) and `releaseSeat`
  (PATCH /:label/release).
* `server/routes/bookings.js` gives `createPendingBooking` (POST /),
  `approveBooking` (POST /:id/approve, a MongoDB transaction) and
  `rejectBooking` (POST /:id/reject).
* `server/middleware/upload.js` gives the multer attachment filter
  (`mimetypeOk`, the 5 MB limit).

Modelling conventions: ObjectIds are `Nat`, drawn from a `nextId` counter;
enum-valued schema fields stay the strings the source uses; JS truthiness of
the strings and numbers the handlers test is made explicit; `Seat.find` /
`findById` / `findOne` return documents in collection order (Mongo natural
order); `updateOne`/`findOneAndUpdate` update the first matching document;
a transaction's session writes are a pure candidate state that `commit`
installs and `abort` discards.  A `commitOk` flag models whether the storage
layer durably commits the approve transaction (`StorageFailure` otherwise).
-/

namespace Tvt

/-- JS `String.prototype.toUpperCase` on the ASCII data the server handles:
uppercase every character. -/
def jsToUpper (s : String) : String := ⟨s.data.map Char.toUpper⟩

/-- JS `String.prototype.toLowerCase`: lowercase every character. -/
def jsToLower (s : String) : String := ⟨s.data.map Char.toLower⟩

/-- JS `String.prototype.trim`: strip leading and trailing whitespace. -/
def jsTrim (s : String) : String :=
  ⟨((s.data.dropWhile Char.isWhitespace).reverse.dropWhile
    Char.isWhitespace).reverse⟩

/-- JS `String.prototype.split` with a one-character separator (the server
splits only on `","` and, in the email pattern, on `"@"`): the segments
between occurrences of the separator, empty segments kept. -/
def splitOnCharAux (c : Char) : List Char → List Char → List (List Char)
  | [], acc => [acc.reverse]
  | x :: xs, acc =>
    if x = c then acc.reverse :: splitOnCharAux c xs []
    else splitOnCharAux c xs (x :: acc)

def splitOnChar (c : Char) (s : String) : List String :=
  (splitOnCharAux c s.data []).map (fun l => ⟨l⟩)

/-- A document of the `seats` collection (`server/models/Seat.js`).
`type` is `"primary"` or `"premium"`, `status` is `"available"` or
`"occupied"`, `occupiedByBookingId` is the nullable ObjectId ref. -/
structure Seat where
  id : Nat
  label : String
  row : String
  number : Nat
  type : String
  status : String
  occupiedByBookingId : Option Nat
deriving Repr, DecidableEq

/-- A document of the `bookings` collection (`server/models/Booking.js`).
`seatLabels` are the labels as submitted, `seatIds` the ObjectIds resolved on
approve, `status` is `"pending" | "approved" | "rejected"`. -/
structure Booking where
  id : Nat
  email : String
  phone : String
  amount : ℚ
  seatLabels : List String
  seatIds : List Nat
  screenshotFileId : Nat
  screenshotFilename : String
  screenshotMimetype : String
  screenshotSize : Nat
  status : String
  adminNotes : Option String
deriving Repr, DecidableEq

/-- An uploaded multipart file as multer hands it to the route
(`req.file`: originalname, mimetype, size, buffer). -/
structure UploadedFile where
  originalname : String
  mimetype : String
  size : Nat
deriving Repr, DecidableEq

/-- The persisted state: the two collections in natural order, the GridFS
`uploads` bucket (file id with its metadata), and a counter from which Mongo
draws fresh ObjectIds. -/
structure DB where
  seats : List Seat
  bookings : List Booking
  uploads : List (Nat × UploadedFile)
  nextId : Nat
deriving Repr, DecidableEq

/-- `Booking.findById(id)`: first document of the collection with that id. -/
def findBooking (db : DB) (bookingId : Nat) : Option Booking :=
  db.bookings.find? (fun b => b.id = bookingId)

/-- `Seat.findOne({label})`: first seat with that label. -/
def findSeat (db : DB) (label : String) : Option Seat :=
  db.seats.find? (fun s => s.label = label)

/-- Truthiness of `req.body?.adminNotes`: an absent or empty note is falsy,
so the handlers leave `adminNotes` untouched for it. -/
def truthyNote : Option String → Bool
  | none => false
  | some s => s ≠ ""

/-- `rowToType` from `server/routes/seats.js`: rows K–T are premium,
everything else primary. -/
def rowToType (row : String) : String :=
  let premiumRows : List String := ["K","L","M","N","O","P","Q","R","S","T"]
  if premiumRows.contains (jsToUpper row) then "premium" else "primary"

/-! ## Approve (POST /api/bookings/:id/approve) -/

/-- The distinguishable outcomes of the approve transaction, one per
early-return of the handler: 404 booking not found, 400 `Booking status is
<s>, cannot approve`, 400 `Seats not found: <missing>`, 409 `Seats already
occupied: <occupied>`, and the catch-all 500 when the transaction cannot
commit. -/
inductive ApproveErr where
  | notFound
  | invalidState (current : String)
  | unresolvedSeats (missing : List String)
  | conflict (occupied : List String)
  | storageFailure
deriving Repr, DecidableEq

/-- The seat mutation of the approve loop: `seat.status = "occupied";
seat.occupiedByBookingId = booking._id`. -/
def occupyFor (bid : Nat) (s : Seat) : Seat :=
  { s with status := "occupied", occupiedByBookingId := some bid }

/-- `Seat.find({label: {$in: booking.seatLabels}}).session(session)`: the
documents whose label is one of the requested labels, in collection order. -/
def seatsFor (db : DB) (booking : Booking) : List Seat :=
  db.seats.filter (fun s => booking.seatLabels.contains s.label)

/-- `foundLabels = new Set(seats.map(s => s.label)); missing =
booking.seatLabels.filter(l => !foundLabels.has(l))`. -/
def missingFor (db : DB) (booking : Booking) : List String :=
  booking.seatLabels.filter
    (fun l => ! ((seatsFor db booking).map (fun s => s.label)).contains l)

/-- `occupied = seats.filter(s => s.status !== "available").map(s =>
s.label)`. -/
def occupiedFor (db : DB) (booking : Booking) : List String :=
  ((seatsFor db booking).filter (fun s => s.status ≠ "available")).map
    (fun s => s.label)

/-- The booking as saved by a successful approve: status approved,
`seatIds = seats.map(s => s._id)` in fetch (collection) order, and
`adminNotes` when the supplied note is truthy. -/
def approvedBooking (db : DB) (booking : Booking) (notes : Option String) :
    Booking :=
  { booking with
    status := "approved",
    seatIds := (seatsFor db booking).map (fun s => s.id),
    adminNotes := if truthyNote notes then notes else booking.adminNotes }

/-- The session writes of a successful approve: every fetched seat is saved
back occupied-and-linked (the fetched seats are exactly the documents whose
label is requested, and `save` writes each back in place by `_id`), and the
booking is saved as `approvedBooking`. -/
def approveCommit (db : DB) (booking : Booking) (notes : Option String) : DB :=
  { db with
    seats := db.seats.map (fun s =>
      if booking.seatLabels.contains s.label then occupyFor booking.id s else s),
    bookings := db.bookings.map (fun b =>
      if b.id = booking.id then approvedBooking db booking notes else b) }

/-- POST /api/bookings/:id/approve.  Runs the four precondition checks in
handler order inside the transaction; on any failure the transaction is
aborted, so the session writes never reach the store and the pre-state is
returned.  `commitOk = false` models `commitTransaction` throwing: the catch
block aborts, leaving the store untouched, and reports a 500
(`storageFailure`).  The success payload is `booking.seatLabels`. -/
def approveBooking (db : DB) (bookingId : Nat) (notes : Option String)
    (commitOk : Bool) : Except ApproveErr (List String) × DB :=
  match findBooking db bookingId with
  | none => (.error .notFound, db)
  | some booking =>
    if booking.status ≠ "pending" then
      (.error (.invalidState booking.status), db)
    else if missingFor db booking ≠ [] then
      (.error (.unresolvedSeats (missingFor db booking)), db)
    else if occupiedFor db booking ≠ [] then
      (.error (.conflict (occupiedFor db booking)), db)
    else if commitOk then
      (.ok booking.seatLabels, approveCommit db booking notes)
    else (.error .storageFailure, db)

/-! ## Reject (POST /api/bookings/:id/reject) -/

/-- Outcomes of the reject handler: 404 and 400 `Booking status is <s>,
cannot reject`. -/
inductive RejectErr where
  | notFound
  | invalidState (current : String)
deriving Repr, DecidableEq

/-- The booking as saved by a successful reject: status rejected and
`adminNotes` when the supplied note is truthy. -/
def rejectedBooking (booking : Booking) (notes : Option String) : Booking :=
  { booking with
    status := "rejected",
    adminNotes := if truthyNote notes then notes else booking.adminNotes }

/-- POST /api/bookings/:id/reject: no session, no seat access; flips a
pending booking to rejected, sets `adminNotes` when the supplied note is
truthy, and saves just that booking (by `_id`). -/
def rejectBooking (db : DB) (bookingId : Nat) (notes : Option String) :
    Except RejectErr Unit × DB :=
  match findBooking db bookingId with
  | none => (.error .notFound, db)
  | some booking =>
    if booking.status ≠ "pending" then
      (.error (.invalidState booking.status), db)
    else
      (.ok (), { db with
        bookings := db.bookings.map (fun b =>
          if b.id = booking.id then rejectedBooking booking notes else b) })

/-! ## Inventory initialization (POST /api/seats/init) -/

/-- The `$set` half of the init upsert, applied to an existing document:
row, number, type and label are made authoritative; status and
`occupiedByBookingId` are untouched. -/
def structSet (s : Seat) (r : String) (n : Nat) (ty : String) : Seat :=
  { s with row := r, number := n, type := ty, label := r ++ toString n }

/-- One upsert of the bulk (`updateOne` with `upsert: true`): if a seat with
the label exists, `$set` overwrites its structural fields on the first match;
otherwise a new seat is inserted (at the end of the collection, with a fresh
ObjectId) with `$setOnInsert: {status: "available", occupiedByBookingId:
null}`. -/
def upsertSeats (r : String) (n : Nat) (ty : String) (freshId : Nat) :
    List Seat → List Seat × Bool
  | [] => ([Seat.mk freshId (r ++ toString n) r n ty "available" none], true)
  | s :: rest =>
    if s.label = r ++ toString n then
      (structSet s r n ty :: rest, false)
    else
      let (rest', inserted) := upsertSeats r n ty freshId rest
      (s :: rest', inserted)

/-- Apply one scheme entry to the store. -/
def upsertEntry (db : DB) (e : String × Nat) : DB :=
  let (seats', inserted) := upsertSeats e.1 e.2 (rowToType e.1) db.nextId db.seats
  { db with seats := seats', nextId := if inserted then db.nextId + 1 else db.nextId }

/-- The bulk's entries in loop order: rows outer, numbers `1..perRow` inner. -/
def schemeEntries (rows : List String) (perRow : Nat) : List (String × Nat) :=
  rows.flatMap (fun r => (List.range perRow).map (fun k => (r, k + 1)))

/-- Run the whole bulk in list order (the labels of a well-formed scheme are
distinct, so the `ordered: false` execution order is immaterial). -/
def applyUpserts (db : DB) : List (String × Nat) → DB
  | [] => db
  | e :: es => applyUpserts (upsertEntry db e) es

/-- The default row letters A–T of the init handler. -/
def defaultRows : List String :=
  ["A","B","C","D","E","F","G","H","I","J","K","L","M","N","O","P","Q","R","S","T"]

/-- The defaulting of `req.body.rows` / `req.body.perRow` at the top of the
handler: a non-empty rows array is uppercased, anything else falls back to
A–T; `perRow` must be a positive integer, else 20. -/
def initScheme (rowsBody : Option (List String)) (perRowBody : Option Int) :
    List String × Nat :=
  let rows := match rowsBody with
    | some rs => if rs ≠ [] then rs.map jsToUpper else defaultRows
    | none => defaultRows
  let perRow : Nat := match perRowBody with
    | some n => if n > 0 then n.toNat else 20
    | none => 20
  (rows, perRow)

/-- POST /api/seats/init: upsert the whole scheme, then answer with
`Seat.countDocuments()`. -/
def initializeInventory (db : DB) (rowsBody : Option (List String))
    (perRowBody : Option Int) : Nat × DB :=
  let db' := applyUpserts db
    (schemeEntries (initScheme rowsBody perRowBody).1
      (initScheme rowsBody perRowBody).2)
  (db'.seats.length, db')

/-! ## Manual occupy / release (PATCH /api/seats/:label/...) -/

/-- `findOneAndUpdate({label}, update)`: update the first seat with the
label; `none` means 404. -/
def updateFirstSeat (f : Seat → Seat) (label : String) :
    List Seat → Option (List Seat)
  | [] => none
  | s :: rest =>
    if s.label = label then some (f s :: rest)
    else (updateFirstSeat f label rest).map (fun rest' => s :: rest')

/-- PATCH /api/seats/:label/occupy: `$set: { status: "occupied" }` — and
nothing else — on the first seat with the (uppercased) label. -/
def occupySeat (db : DB) (label : String) : Except Unit Unit × DB :=
  match updateFirstSeat (fun s => { s with status := "occupied" })
      (jsToUpper label) db.seats with
  | none => (.error (), db)
  | some seats' => (.ok (), { db with seats := seats' })

/-- PATCH /api/seats/:label/release: `$set: { status: "available",
occupiedByBookingId: null }` on the first seat with the label. -/
def releaseSeat (db : DB) (label : String) : Except Unit Unit × DB :=
  match updateFirstSeat
      (fun s => { s with status := "available", occupiedByBookingId := none })
      (jsToUpper label) db.seats with
  | none => (.error (), db)
  | some seats' => (.ok (), { db with seats := seats' })

/-! ## Intake (POST /api/bookings with multer upload) -/

/-- The multer `fileFilter` of `server/middleware/upload.js`:
`/^image\/(png|jpe?g|webp|gif)$/i`. -/
def mimetypeOk (mt : String) : Bool :=
  ["image/png", "image/jpg", "image/jpeg", "image/webp", "image/gif"].contains
    (jsToLower mt)

/-- multer's `limits.fileSize`: 5 MB. -/
def maxFileSize : Nat := 5 * 1024 * 1024

/-- A character admissible in the email atoms: the regex classes are
`[^\s@]`. -/
def emailAtomChar (c : Char) : Bool := ¬ c.isWhitespace ∧ c ≠ '@'

/-- The Booking schema's email pattern `/^[^\s@]+@[^\s@]+\.[^\s@]+$/`:
exactly one `@`, a non-empty whitespace-free local part, and a domain that
splits around some `.` into two non-empty `[^\s@]+` atoms (the dot sits at
an interior position of the domain). -/
def emailMatches (s : String) : Bool :=
  match splitOnChar '@' s with
  | [a, b] =>
    a ≠ "" ∧ a.data.all emailAtomChar ∧ b.data.all emailAtomChar ∧
      (List.range b.data.length).any (fun i =>
        b.data.get? i = some '.' ∧ 1 ≤ i ∧ i + 2 ≤ b.data.length)
  | _ => false

/-- `[6-9]\d{9}`: the ten-digit mobile core of the phone pattern. -/
def phoneCore : List Char → Bool
  | c :: rest => ('6' ≤ c ∧ c ≤ '9') ∧ rest.length = 9 ∧ rest.all Char.isDigit
  | [] => false

/-- The Booking schema's phone pattern `/^(\+?91)?[6-9]\d{9}$|^\d{10}$/`:
the mobile core with an optional `91` or `+91` country prefix, or any ten
digits. -/
def phoneMatches (s : String) : Bool :=
  phoneCore s.data ||
    (match s.data with
     | '9' :: '1' :: rest => phoneCore rest
     | _ => false) ||
    (match s.data with
     | '+' :: '9' :: '1' :: rest => phoneCore rest
     | _ => false) ||
    (s.data.length = 10 ∧ s.data.all Char.isDigit)

/-- Schema-level validation run by `Booking.create` (`server/models/
Booking.js`): email is trimmed, lowercased and matched; phone is trimmed and
matched; `amount` has `min: 1`.  (`seatLabels: {type: [String], required:
true}` is satisfied by any array, an empty one included — Mongoose `required`
does not reject empty arrays — and the remaining required fields are always
supplied by the handler.) -/
def bookingValidates (email phone : String) (amount : ℚ) : Bool :=
  emailMatches (jsToLower (jsTrim email)) ∧
    phoneMatches (jsTrim phone) ∧ 1 ≤ amount

/-- The outcomes of the intake route: the two multer rejections (non-image
mimetype, over the 5 MB limit), the handler's 400 for a falsy required
field, and the 500 of the `Booking.create` catch when schema validation
fails. -/
inductive IntakeErr where
  | attachmentType
  | attachmentTooLarge
  | missingFields
  | saveFailed
deriving Repr, DecidableEq

/-- The seat-label parsing of the intake handler:
`seats.split(",").map(s => s.trim().toUpperCase()).filter(Boolean)`. -/
def parseSeatLabels (seatsRaw : String) : List String :=
  ((splitOnChar ',' seatsRaw).map (fun s => jsToUpper (jsTrim s))).filter
    (fun s => s ≠ "")

/-- POST /api/bookings.  multer first screens the attachment (type filter,
size limit); the handler then 400s when any of email, phone, `Number(amount)`,
the raw seats string or the file is falsy; the screenshot is stored in
GridFS; `Booking.create` persists the pending booking, applying the schema
validation — a validation failure is caught and answered as a 500, with the
screenshot already stored but no booking created.  Returns the new booking's
id on success. -/
def createPendingBooking (db : DB) (email phone : String) (amount : ℚ)
    (seatsRaw : String) (file : Option UploadedFile) :
    Except IntakeErr Nat × DB :=
  match file with
  | some f =>
    if ¬ mimetypeOk f.mimetype then (.error .attachmentType, db)
    else if f.size > maxFileSize then (.error .attachmentTooLarge, db)
    else if email = "" ∨ phone = "" ∨ amount = 0 ∨ seatsRaw = "" then
      (.error .missingFields, db)
    else
      let fileId := db.nextId
      let db₁ := { db with uploads := db.uploads ++ [(fileId, f)], nextId := db.nextId + 1 }
      if bookingValidates email phone amount then
        let booking : Booking :=
          { id := db₁.nextId
            email := jsToLower (jsTrim email)
            phone := jsTrim phone
            amount := amount
            seatLabels := parseSeatLabels seatsRaw
            seatIds := []
            screenshotFileId := fileId
            screenshotFilename := f.originalname
            screenshotMimetype := f.mimetype
            screenshotSize := f.size
            status := "pending"
            adminNotes := none }
        (.ok booking.id,
          { db₁ with bookings := db₁.bookings ++ [booking], nextId := db₁.nextId + 1 })
      else (.error .saveFailed, db₁)
  | none => (.error .missingFields, db)

/-! ## The operations of the system, as one step type -/

/-- Every state-touching route of the server, with its request data.  The
read-only routes (GET seat listing, GET one seat, GET screenshot) are
included as explicit reads. -/
inductive Op where
  | init (rowsBody : Option (List String)) (perRowBody : Option Int)
  | occupy (label : String)
  | release (label : String)
  | intake (email phone : String) (amount : ℚ) (seatsRaw : String)
      (file : Option UploadedFile)
  | approve (bookingId : Nat) (notes : Option String) (commitOk : Bool)
  | reject (bookingId : Nat) (notes : Option String)
  | getSeats
  | getSeat (label : String)
  | getScreenshot (fileId : Nat)
deriving Repr, DecidableEq

/-- The state transition of each operation (responses dropped). -/
def applyOp (op : Op) (db : DB) : DB :=
  match op with
  | .init rows perRow => (initializeInventory db rows perRow).2
  | .occupy label => (occupySeat db label).2
  | .release label => (releaseSeat db label).2
  | .intake email phone amount seatsRaw file =>
    (createPendingBooking db email phone amount seatsRaw file).2
  | .approve bookingId notes commitOk => (approveBooking db bookingId notes commitOk).2
  | .reject bookingId notes => (rejectBooking db bookingId notes).2
  | .getSeats => db
  | .getSeat _ => db
  | .getScreenshot _ => db

/-- The Seat Registry invariant of the spec: `occupiedBy != null` ⟺
`status == occupied`, for every seat of the store. -/
def seatInv (db : DB) : Prop :=
  ∀ s ∈ db.seats, s.occupiedByBookingId ≠ none ↔ s.status = "occupied"

/-- The half of the invariant that every operation does maintain: a seat
with a non-null occupant link is occupied. -/
def seatInvLink (db : DB) : Prop :=
  ∀ s ∈ db.seats, s.occupiedByBookingId ≠ none → s.status = "occupied"

instance (db : DB) : Decidable (seatInv db) := by
  unfold seatInv; infer_instance

instance (db : DB) : Decidable (seatInvLink db) := by
  unfold seatInvLink; infer_instance

/-- Discriminator for the occupy route among the operations. -/
def isOccupyOp : Op → Bool
  | .occupy _ => true
  | _ => false

/-- The spec's reading of `resolvedSeatRefs` (stated from the spec's words,
for comparison with the code's behaviour): one entry per requested label, the
i-th entry being the identity of the seat resolved for the i-th label of
`requestedSeatLabels`. -/
def resolvedInRequestedOrder (db : DB) (labels : List String)
    (ids : List Nat) : Prop :=
  labels.map (fun l =>
    (db.seats.find? (fun s => s.label = l)).map (fun s => s.id)) = ids.map some

instance (db : DB) (labels : List String) (ids : List Nat) :
    Decidable (resolvedInRequestedOrder db labels ids) := by
  unfold resolvedInRequestedOrder; infer_instance

/-! ## Concrete stores used as witnesses and counterexamples -/

def seatA1 : Seat := ⟨1, "A1", "A", 1, "primary", "available", none⟩

def seatA2 : Seat := ⟨2, "A2", "A", 2, "primary", "available", none⟩

def fileOk : UploadedFile := ⟨"proof.png", "image/png", 1000⟩

/-- A pending booking requesting A2 before A1 — the reverse of the seat
collection's order. -/
def bookingRev : Booking :=
  ⟨10, "a@b.c", "9876543210", 5, ["A2", "A1"], [], 99, "proof.png",
    "image/png", 1000, "pending", none⟩

def dbRev : DB := ⟨[seatA1, seatA2], [bookingRev], [], 100⟩

/-- A pending booking requesting the same label twice. -/
def bookingDup : Booking :=
  ⟨11, "a@b.c", "9876543210", 5, ["A1", "A1"], [], 99, "proof.png",
    "image/png", 1000, "pending", none⟩

def dbDup : DB := ⟨[seatA1, seatA2], [bookingDup], [], 100⟩

/-- Two pending bookings racing for the single seat A1. -/
def bookingRace1 : Booking :=
  ⟨20, "a@b.c", "9876543210", 5, ["A1"], [], 99, "proof.png",
    "image/png", 1000, "pending", none⟩

def bookingRace2 : Booking :=
  ⟨21, "c@d.e", "9876543211", 5, ["A1"], [], 98, "proof.png",
    "image/png", 1000, "pending", none⟩

def dbRace : DB := ⟨[seatA1], [bookingRace1, bookingRace2], [], 100⟩

/-- An already-approved booking holding seat A1. -/
def bookingDone : Booking :=
  ⟨30, "a@b.c", "9876543210", 5, ["A1"], [1], 99, "proof.png",
    "image/png", 1000, "approved", none⟩

def dbDone : DB :=
  ⟨[⟨1, "A1", "A", 1, "primary", "occupied", some 30⟩], [bookingDone], [], 100⟩

/-- A store with one free seat and nothing else. -/
def dbOneFree : DB := ⟨[seatA1], [], [], 50⟩

def dbEmpty : DB := ⟨[], [], [], 0⟩

/-- The rational number one half (numerator 1, denominator 2), given as a
literal so that it evaluates. -/
def halfAmount : ℚ := ⟨1, 2, by norm_num, by norm_num⟩

/-! ## Lemmas about the approve transaction -/

/-- Every run of the approve handler either aborts with an error and the
untouched store, or commits: the booking was found pending, all its labels
resolved, every resolved seat was available, the commit succeeded, and the
post-state is the session state `approveCommit`. -/
lemma approve_cases (db : DB) (bookingId : Nat) (notes : Option String)
    (commitOk : Bool) :
    (∃ e, approveBooking db bookingId notes commitOk = (.error e, db)) ∨
    (∃ booking, findBooking db bookingId = some booking ∧
      booking.status = "pending" ∧ missingFor db booking = [] ∧
      occupiedFor db booking = [] ∧ commitOk = true ∧
      approveBooking db bookingId notes commitOk =
        (.ok booking.seatLabels, approveCommit db booking notes)) := by
  unfold approveBooking
  cases hf : findBooking db bookingId with
  | none => exact .inl ⟨.notFound, rfl⟩
  | some booking =>
    by_cases h1 : booking.status ≠ "pending"
    · exact .inl ⟨.invalidState booking.status, by simp [h1]⟩
    · by_cases h2 : missingFor db booking ≠ []
      · exact .inl ⟨.unresolvedSeats (missingFor db booking), by simp [h1, h2]⟩
      · by_cases h3 : occupiedFor db booking ≠ []
        · exact .inl ⟨.conflict (occupiedFor db booking), by simp [h1, h2, h3]⟩
        · cases commitOk with
          | false => exact .inl ⟨.storageFailure, by simp [h1, h2, h3]⟩
          | true =>
            refine .inr ⟨booking, rfl, not_not.mp h1, not_not.mp h2,
              not_not.mp h3, rfl, by simp [h1, h2, h3]⟩

/-- An aborted approve leaves the store exactly as it was. -/
lemma approve_state_of_error (db : DB) (bookingId : Nat) (notes : Option String)
    (commitOk : Bool) (e : ApproveErr)
    (h : (approveBooking db bookingId notes commitOk).1 = .error e) :
    (approveBooking db bookingId notes commitOk).2 = db := by
  rcases approve_cases db bookingId notes commitOk with ⟨e', he⟩ | ⟨b, _, _, _, _, _, he⟩
  · rw [he]
  · rw [he] at h ⊢
    exact absurd h (by simp)

/-- When all four preconditions hold and the commit goes through, the
handler answers the requested labels and installs the session state. -/
lemma approve_of_preconds (db : DB) (bookingId : Nat) (notes : Option String)
    (booking : Booking) (hf : findBooking db bookingId = some booking)
    (h1 : booking.status = "pending") (h2 : missingFor db booking = [])
    (h3 : occupiedFor db booking = []) :
    approveBooking db bookingId notes true =
      (.ok booking.seatLabels, approveCommit db booking notes) := by
  unfold approveBooking
  simp [hf, h1, h2, h3]

/-- The 404 branch: unknown booking id. -/
lemma approve_notFound (db : DB) (bookingId : Nat) (notes : Option String)
    (commitOk : Bool) (hf : findBooking db bookingId = none) :
    approveBooking db bookingId notes commitOk = (.error .notFound, db) := by
  unfold approveBooking; simp [hf]

/-- The InvalidState branch: a non-pending booking, reported with its
current status. -/
lemma approve_invalidState (db : DB) (bookingId : Nat) (notes : Option String)
    (commitOk : Bool) (booking : Booking)
    (hf : findBooking db bookingId = some booking)
    (h1 : booking.status ≠ "pending") :
    approveBooking db bookingId notes commitOk =
      (.error (.invalidState booking.status), db) := by
  unfold approveBooking; simp [hf, h1]

/-- The UnresolvedSeats branch: some requested label has no seat. -/
lemma approve_unresolved (db : DB) (bookingId : Nat) (notes : Option String)
    (commitOk : Bool) (booking : Booking)
    (hf : findBooking db bookingId = some booking)
    (h1 : booking.status = "pending") (h2 : missingFor db booking ≠ []) :
    approveBooking db bookingId notes commitOk =
      (.error (.unresolvedSeats (missingFor db booking)), db) := by
  unfold approveBooking; simp [hf, h1, h2]

/-- The Conflict branch: all labels resolve but some resolved seat is not
available. -/
lemma approve_conflict (db : DB) (bookingId : Nat) (notes : Option String)
    (commitOk : Bool) (booking : Booking)
    (hf : findBooking db bookingId = some booking)
    (h1 : booking.status = "pending") (h2 : missingFor db booking = [])
    (h3 : occupiedFor db booking ≠ []) :
    approveBooking db bookingId notes commitOk =
      (.error (.conflict (occupiedFor db booking)), db) := by
  unfold approveBooking; simp [hf, h1, h2, h3]

/-- A label of the booking is found by the `$in` fetch iff some seat of the
store carries it. -/
lemma seatsFor_contains_label (db : DB) (booking : Booking) (l : String)
    (hl : l ∈ booking.seatLabels) :
    ((seatsFor db booking).map (fun s => s.label)).contains l ↔
      ∃ s ∈ db.seats, s.label = l := by
  simp only [List.elem_iff, List.mem_map, seatsFor, List.mem_filter]
  constructor
  · rintro ⟨s, ⟨hs, -⟩, rfl⟩
    exact ⟨s, hs, rfl⟩
  · rintro ⟨s, hs, rfl⟩
    exact ⟨s, ⟨hs, by simp [List.elem_iff, hl]⟩, rfl⟩

/-- A reported missing label is exactly a requested label that no seat of
the store carries. -/
lemma mem_missingFor (db : DB) (booking : Booking) (l : String) :
    l ∈ missingFor db booking ↔
      l ∈ booking.seatLabels ∧ ∀ s ∈ db.seats, s.label ≠ l := by
  unfold missingFor
  rw [List.mem_filter]
  constructor
  · rintro ⟨hl, hc⟩
    refine ⟨hl, fun s hs hsl => ?_⟩
    rw [Bool.not_eq_eq_eq_not, Bool.not_true] at hc
    have hmem := (seatsFor_contains_label db booking l hl).mpr ⟨s, hs, hsl⟩
    rw [hc] at hmem
    simp at hmem
  · rintro ⟨hl, hno⟩
    refine ⟨hl, ?_⟩
    rw [Bool.not_eq_eq_eq_not, Bool.not_true]
    by_contra hc
    rw [Bool.not_eq_false] at hc
    obtain ⟨s, hs, hsl⟩ := (seatsFor_contains_label db booking l hl).mp hc
    exact hno s hs hsl

/-- No missing label iff every requested label resolves. -/
lemma missingFor_eq_nil (db : DB) (booking : Booking) :
    missingFor db booking = [] ↔
      ∀ l ∈ booking.seatLabels, ∃ s ∈ db.seats, s.label = l := by
  rw [List.eq_nil_iff_forall_not_mem]
  constructor
  · intro h l hl
    by_contra hno
    push_neg at hno
    exact h l ((mem_missingFor db booking l).mpr
      ⟨hl, fun s hs hsl => hno s hs hsl⟩)
  · intro h l hlm
    obtain ⟨hl, hno⟩ := (mem_missingFor db booking l).mp hlm
    obtain ⟨s, hs, hsl⟩ := h l hl
    exact hno s hs hsl

/-- A reported occupied label is exactly the label of a requested,
non-available seat of the store. -/
lemma mem_occupiedFor (db : DB) (booking : Booking) (l : String) :
    l ∈ occupiedFor db booking ↔
      ∃ s ∈ db.seats, s.label = l ∧ l ∈ booking.seatLabels ∧
        s.status ≠ "available" := by
  unfold occupiedFor seatsFor
  simp only [List.mem_map, List.mem_filter, List.elem_iff, decide_eq_true_eq]
  constructor
  · rintro ⟨s, ⟨⟨hs, hc⟩, hst⟩, rfl⟩
    exact ⟨s, hs, rfl, hc, hst⟩
  · rintro ⟨s, hs, rfl, hc, hst⟩
    exact ⟨s, ⟨⟨hs, hc⟩, hst⟩, rfl⟩

/-- No occupied label iff every seat carrying a requested label is
available. -/
lemma occupiedFor_eq_nil (db : DB) (booking : Booking) :
    occupiedFor db booking = [] ↔
      ∀ s ∈ db.seats, s.label ∈ booking.seatLabels → s.status = "available" := by
  rw [List.eq_nil_iff_forall_not_mem]
  constructor
  · intro h s hs hl
    by_contra hst
    exact h s.label ((mem_occupiedFor db booking s.label).mpr
      ⟨s, hs, rfl, hl, hst⟩)
  · intro h l hlm
    obtain ⟨s, hs, rfl, hl, hst⟩ := (mem_occupiedFor db booking l).mp hlm
    exact hst (h s hs hl)

/-- A found booking carries the queried id. -/
lemma findBooking_id (db : DB) (bookingId : Nat) (booking : Booking)
    (hf : findBooking db bookingId = some booking) : booking.id = bookingId := by
  have := List.find?_some hf
  simpa using this

/-- `find?`-by-id commutes with mapping an id-preserving update over the
collection. -/
lemma find?_id_map (l : List Booking) (g : Booking → Booking)
    (hg : ∀ b, (g b).id = b.id) (i : Nat) :
    (l.map g).find? (fun b => b.id = i) =
      (l.find? (fun b => b.id = i)).map g := by
  induction l with
  | nil => rfl
  | cons b rest ih =>
    simp only [List.map_cons, List.find?_cons]
    by_cases hb : b.id = i
    · simp [hg, hb]
    · simp [hg, hb, ih]

/-- The session writes of approve keep every seat's label (occupying a seat
only rewrites `status` and `occupiedByBookingId`). -/
lemma approveCommit_labels (db : DB) (booking : Booking) (notes : Option String) :
    (approveCommit db booking notes).seats.map (fun s => s.label) =
      db.seats.map (fun s => s.label) := by
  unfold approveCommit
  rw [List.map_map]
  refine List.map_congr_left (fun s _ => ?_)
  show (if booking.seatLabels.contains s.label then occupyFor booking.id s else s).label = s.label
  split <;> rfl

/-- Looking a booking up after the commit: the collection was mapped with
the id-preserving save of the approved booking. -/
lemma findBooking_approveCommit (db : DB) (booking : Booking)
    (notes : Option String) (i : Nat) :
    findBooking (approveCommit db booking notes) i =
      (findBooking db i).map (fun b =>
        if b.id = booking.id then approvedBooking db booking notes else b) := by
  unfold findBooking approveCommit
  exact find?_id_map db.bookings _
    (fun b => by by_cases h : b.id = booking.id <;> simp [h, approvedBooking]) i

/-! ## Lemmas about reject -/

/-- Reject never touches the seats collection, in any branch. -/
lemma reject_seats_eq (db : DB) (bookingId : Nat) (notes : Option String) :
    (rejectBooking db bookingId notes).2.seats = db.seats := by
  unfold rejectBooking
  cases hf : findBooking db bookingId with
  | none => rfl
  | some booking => by_cases h1 : booking.status ≠ "pending" <;> simp [h1]

/-- Reject never touches the uploads or the id counter either. -/
lemma reject_seats_uploads_eq (db : DB) (bookingId : Nat) (notes : Option String) :
    (rejectBooking db bookingId notes).2.uploads = db.uploads ∧
      (rejectBooking db bookingId notes).2.nextId = db.nextId := by
  unfold rejectBooking
  cases hf : findBooking db bookingId with
  | none => exact ⟨rfl, rfl⟩
  | some booking => by_cases h1 : booking.status ≠ "pending" <;> simp [h1]

/-- The failing branches of reject leave the store untouched. -/
lemma reject_notFound (db : DB) (bookingId : Nat) (notes : Option String)
    (hf : findBooking db bookingId = none) :
    rejectBooking db bookingId notes = (.error .notFound, db) := by
  unfold rejectBooking; simp [hf]

lemma reject_invalidState (db : DB) (bookingId : Nat) (notes : Option String)
    (booking : Booking) (hf : findBooking db bookingId = some booking)
    (h1 : booking.status ≠ "pending") :
    rejectBooking db bookingId notes = (.error (.invalidState booking.status), db) := by
  unfold rejectBooking; simp [hf, h1]

/-- The success branch of reject saves exactly the rejected booking. -/
lemma reject_of_pending (db : DB) (bookingId : Nat) (notes : Option String)
    (booking : Booking) (hf : findBooking db bookingId = some booking)
    (h1 : booking.status = "pending") :
    rejectBooking db bookingId notes =
      (.ok (), { db with
        bookings := db.bookings.map (fun b =>
          if b.id = booking.id then rejectedBooking booking notes else b) }) := by
  unfold rejectBooking; simp [hf, h1]

/-- Booking lookup after a successful reject. -/
lemma findBooking_rejectMap (db : DB) (booking : Booking)
    (notes : Option String) (i : Nat) :
    findBooking { db with
        bookings := db.bookings.map (fun b =>
          if b.id = booking.id then rejectedBooking booking notes else b) } i =
      (findBooking db i).map (fun b =>
        if b.id = booking.id then rejectedBooking booking notes else b) := by
  unfold findBooking
  exact find?_id_map db.bookings _
    (fun b => by by_cases h : b.id = booking.id <;> simp [h, rejectedBooking]) i

/-! ## Lemmas about the seat-touching admin routes and init -/

/-- Members of an updated seat list are old members or the image of an old
member under the update. -/
lemma mem_updateFirstSeat (f : Seat → Seat) (label : String)
    (seats seats' : List Seat) (h : updateFirstSeat f label seats = some seats') :
    ∀ s' ∈ seats', s' ∈ seats ∨ ∃ s ∈ seats, s' = f s := by
  induction seats generalizing seats' with
  | nil => simp [updateFirstSeat] at h
  | cons s rest ih =>
    unfold updateFirstSeat at h
    by_cases hs : s.label = label
    · rw [if_pos hs] at h
      obtain rfl : f s :: rest = seats' := Option.some.inj h
      intro s' hs'
      rcases List.mem_cons.mp hs' with rfl | hmem
      · exact .inr ⟨s, List.mem_cons_self s rest, rfl⟩
      · exact .inl (List.mem_cons_of_mem _ hmem)
    · rw [if_neg hs] at h
      cases hrec : updateFirstSeat f label rest with
      | none => rw [hrec] at h; exact Option.noConfusion h
      | some rest' =>
        rw [hrec] at h
        obtain rfl : s :: rest' = seats' := Option.some.inj h
        intro s' hs'
        rcases List.mem_cons.mp hs' with rfl | hmem
        · exact .inl (List.mem_cons_self _ _)
        · rcases ih rest' hrec s' hmem with hold | ⟨t, ht, rfl⟩
          · exact .inl (List.mem_cons_of_mem _ hold)
          · exact .inr ⟨t, List.mem_cons_of_mem _ ht, rfl⟩

/-- The occupy route leaves bookings, uploads and the counter alone. -/
lemma occupy_frame (db : DB) (label : String) :
    (occupySeat db label).2.bookings = db.bookings ∧
      (occupySeat db label).2.uploads = db.uploads ∧
      (occupySeat db label).2.nextId = db.nextId := by
  unfold occupySeat
  cases h : updateFirstSeat (fun s => { s with status := "occupied" })
      (jsToUpper label) db.seats <;> simp

/-- The release route leaves bookings, uploads and the counter alone. -/
lemma release_frame (db : DB) (label : String) :
    (releaseSeat db label).2.bookings = db.bookings ∧
      (releaseSeat db label).2.uploads = db.uploads ∧
      (releaseSeat db label).2.nextId = db.nextId := by
  unfold releaseSeat
  cases h : updateFirstSeat
      (fun s => { s with status := "available", occupiedByBookingId := none })
      (jsToUpper label) db.seats <;> simp

/-- A single upsert leaves bookings and uploads alone. -/
lemma upsertEntry_frame (db : DB) (e : String × Nat) :
    (upsertEntry db e).bookings = db.bookings ∧
      (upsertEntry db e).uploads = db.uploads := by
  unfold upsertEntry
  constructor <;> rfl

/-- The whole init bulk leaves bookings and uploads alone. -/
lemma applyUpserts_frame (es : List (String × Nat)) (db : DB) :
    (applyUpserts db es).bookings = db.bookings ∧
      (applyUpserts db es).uploads = db.uploads := by
  induction es generalizing db with
  | nil => exact ⟨rfl, rfl⟩
  | cons e es ih =>
    have h := upsertEntry_frame db e
    have h' := ih (upsertEntry db e)
    exact ⟨h'.1.trans h.1, h'.2.trans h.2⟩

/-- The init route leaves bookings and uploads alone. -/
lemma init_frame (db : DB) (rowsBody : Option (List String))
    (perRowBody : Option Int) :
    (initializeInventory db rowsBody perRowBody).2.bookings = db.bookings ∧
      (initializeInventory db rowsBody perRowBody).2.uploads = db.uploads :=
  applyUpserts_frame _ db

/-- When no seat carries the upserted label, the upsert is exactly an insert
of the default document at the end of the collection. -/
lemma upsertSeats_insert (r : String) (n : Nat) (ty : String) (fid : Nat)
    (seats : List Seat) (h : ∀ s ∈ seats, s.label ≠ r ++ toString n) :
    upsertSeats r n ty fid seats =
      (seats ++ [Seat.mk fid (r ++ toString n) r n ty "available" none], true) := by
  induction seats with
  | nil => rfl
  | cons s rest ih =>
    have hs := h s (List.mem_cons_self _ _)
    unfold upsertSeats
    rw [if_neg hs, ih (fun t ht => h t (List.mem_cons_of_mem _ ht))]
    rfl

/-- When some seat carries the upserted label, the upsert is an update: the
collection's label sequence is unchanged and nothing is inserted. -/
lemma upsertSeats_update (r : String) (n : Nat) (ty : String) (fid : Nat)
    (seats : List Seat) (h : ∃ s ∈ seats, s.label = r ++ toString n) :
    (upsertSeats r n ty fid seats).1.map (fun s => s.label) =
        seats.map (fun s => s.label) ∧
      (upsertSeats r n ty fid seats).2 = false := by
  induction seats with
  | nil => simp at h
  | cons s rest ih =>
    unfold upsertSeats
    by_cases hs : s.label = r ++ toString n
    · rw [if_pos hs]
      exact ⟨by simp [structSet, hs], rfl⟩
    · rw [if_neg hs]
      obtain ⟨t, ht, htl⟩ := h
      rcases List.mem_cons.mp ht with rfl | htr
      · exact absurd htl hs
      · have := ih ⟨t, htr, htl⟩
        cases hrec : upsertSeats r n ty fid rest with
        | mk rest' ins =>
          rw [hrec] at this
          exact ⟨by simpa using this.1, by simpa using this.2⟩

/-- Every document after an upsert either keeps the id, status and occupant
link of a document that was already there, or is the freshly inserted
available seat. -/
lemma upsertSeats_mem (r : String) (n : Nat) (ty : String) (fid : Nat)
    (seats : List Seat) :
    ∀ s' ∈ (upsertSeats r n ty fid seats).1,
      (∃ s ∈ seats, s'.id = s.id ∧ s'.status = s.status ∧
        s'.occupiedByBookingId = s.occupiedByBookingId) ∨
      (s'.status = "available" ∧ s'.occupiedByBookingId = none) := by
  induction seats with
  | nil =>
    intro s' hs'
    simp only [upsertSeats, List.mem_singleton] at hs'
    subst hs'
    exact .inr ⟨rfl, rfl⟩
  | cons s rest ih =>
    intro s' hs'
    unfold upsertSeats at hs'
    by_cases hs : s.label = r ++ toString n
    · rw [if_pos hs] at hs'
      rcases List.mem_cons.mp hs' with rfl | hmem
      · exact .inl ⟨s, List.mem_cons_self _ _, rfl, rfl, rfl⟩
      · exact .inl ⟨s', List.mem_cons_of_mem _ hmem, rfl, rfl, rfl⟩
    · rw [if_neg hs] at hs'
      cases hrec : upsertSeats r n ty fid rest with
      | mk rest' ins =>
        rw [hrec] at hs'
        rcases List.mem_cons.mp hs' with rfl | hmem
        · exact .inl ⟨s', List.mem_cons_self _ _, rfl, rfl, rfl⟩
        · rcases ih s' (by rw [hrec]; exact hmem) with ⟨t, ht, hf⟩ | hnew
          · exact .inl ⟨t, List.mem_cons_of_mem _ ht, hf⟩
          · exact .inr hnew

/-- Every document present before an upsert is still present afterwards,
with the same id, status and occupant link. -/
lemma upsertSeats_oldmem (r : String) (n : Nat) (ty : String) (fid : Nat)
    (seats : List Seat) :
    ∀ s ∈ seats, ∃ s' ∈ (upsertSeats r n ty fid seats).1,
      s'.id = s.id ∧ s'.status = s.status ∧
        s'.occupiedByBookingId = s.occupiedByBookingId := by
  induction seats with
  | nil => simp
  | cons s0 rest ih =>
    intro s hs
    unfold upsertSeats
    by_cases h0 : s0.label = r ++ toString n
    · rw [if_pos h0]
      rcases List.mem_cons.mp hs with rfl | hmem
      · exact ⟨_, List.mem_cons_self _ _, rfl, rfl, rfl⟩
      · exact ⟨s, List.mem_cons_of_mem _ hmem, rfl, rfl, rfl⟩
    · rw [if_neg h0]
      cases hrec : upsertSeats r n ty fid rest with
      | mk rest' ins =>
        rcases List.mem_cons.mp hs with rfl | hmem
        · exact ⟨s, List.mem_cons_self _ _, rfl, rfl, rfl⟩
        · obtain ⟨s', hs', hf⟩ := ih s hmem
          rw [hrec] at hs'
          exact ⟨s', List.mem_cons_of_mem _ hs', hf⟩

/-- After upserting an entry, the first seat carrying the entry's label has
the entry's structural fields. -/
lemma upsertSeats_find_entry (r : String) (n : Nat) (ty : String) (fid : Nat)
    (seats : List Seat) :
    ∃ s', (upsertSeats r n ty fid seats).1.find?
        (fun s => s.label = r ++ toString n) = some s' ∧
      s'.row = r ∧ s'.number = n ∧ s'.type = ty := by
  induction seats with
  | nil =>
    exact ⟨Seat.mk fid (r ++ toString n) r n ty "available" none,
      by simp [upsertSeats, List.find?], rfl, rfl, rfl⟩
  | cons s rest ih =>
    unfold upsertSeats
    by_cases hs : s.label = r ++ toString n
    · rw [if_pos hs]
      refine ⟨structSet s r n ty, ?_, rfl, rfl, rfl⟩
      simp [List.find?, structSet]
    · rw [if_neg hs]
      cases hrec : upsertSeats r n ty fid rest with
      | mk rest' ins =>
        obtain ⟨s', hfind, hf⟩ := ih
        rw [hrec] at hfind
        refine ⟨s', ?_, hf⟩
        simpa [List.find?_cons, hs] using hfind

/-- An upsert does not disturb the lookup of any other label. -/
lemma upsertSeats_find_other (r : String) (n : Nat) (ty : String) (fid : Nat)
    (seats : List Seat) (l : String) (hl : l ≠ r ++ toString n) :
    (upsertSeats r n ty fid seats).1.find? (fun s => s.label = l) =
      seats.find? (fun s => s.label = l) := by
  have hl' : ¬ (r ++ toString n = l) := fun h => hl h.symm
  induction seats with
  | nil => simp [upsertSeats, List.find?, hl']
  | cons s rest ih =>
    unfold upsertSeats
    by_cases hs : s.label = r ++ toString n
    · rw [if_pos hs]
      have h2 : ¬ (s.label = l) := fun h => hl' (hs ▸ h)
      simp [List.find?_cons, structSet, hl', h2]
    · rw [if_neg hs]
      cases hrec : upsertSeats r n ty fid rest with
      | mk rest' ins =>
        rw [hrec] at ih
        by_cases hsl : s.label = l
        · simp [List.find?_cons, hsl]
        · simp [List.find?_cons, hsl, ih]

/-- The seats after one bulk entry are the seats after the corresponding
upsert. -/
lemma upsertEntry_seats (db : DB) (e : String × Nat) :
    (upsertEntry db e).seats =
      (upsertSeats e.1 e.2 (rowToType e.1) db.nextId db.seats).1 := by
  unfold upsertEntry
  cases h : upsertSeats e.1 e.2 (rowToType e.1) db.nextId db.seats with
  | mk s' ins => simp [h]

/-- Unfolding one step of the bulk. -/
lemma applyUpserts_cons (db : DB) (e : String × Nat) (es : List (String × Nat)) :
    applyUpserts db (e :: es) = applyUpserts (upsertEntry db e) es := rfl

/-- Every seat present before the bulk is still present afterwards with the
same id, status and occupant link. -/
lemma applyUpserts_oldmem (es : List (String × Nat)) (db : DB) :
    ∀ s ∈ db.seats, ∃ s' ∈ (applyUpserts db es).seats,
      s'.id = s.id ∧ s'.status = s.status ∧
        s'.occupiedByBookingId = s.occupiedByBookingId := by
  induction es generalizing db with
  | nil => exact fun s hs => ⟨s, hs, rfl, rfl, rfl⟩
  | cons e es ih =>
    intro s hs
    have h1 := upsertSeats_oldmem e.1 e.2 (rowToType e.1) db.nextId db.seats s hs
    rw [← upsertEntry_seats] at h1
    obtain ⟨s1, hs1, hid, hst, hocc⟩ := h1
    obtain ⟨s2, hs2, hid2, hst2, hocc2⟩ := ih (upsertEntry db e) s1 hs1
    exact ⟨s2, by rw [applyUpserts_cons]; exact hs2,
      hid2.trans hid, hst2.trans hst, hocc2.trans hocc⟩

/-- Every seat after the bulk either keeps the id, status and occupant link
of a pre-existing seat, or is a freshly inserted available one. -/
lemma applyUpserts_mem (es : List (String × Nat)) (db : DB) :
    ∀ s' ∈ (applyUpserts db es).seats,
      (∃ s ∈ db.seats, s'.id = s.id ∧ s'.status = s.status ∧
        s'.occupiedByBookingId = s.occupiedByBookingId) ∨
      (s'.status = "available" ∧ s'.occupiedByBookingId = none) := by
  induction es generalizing db with
  | nil => exact fun s' hs' => .inl ⟨s', hs', rfl, rfl, rfl⟩
  | cons e es ih =>
    intro s' hs'
    rw [applyUpserts_cons] at hs'
    rcases ih (upsertEntry db e) s' hs' with ⟨s1, hs1, hid, hst, hocc⟩ | hnew
    · rw [upsertEntry_seats] at hs1
      rcases upsertSeats_mem e.1 e.2 (rowToType e.1) db.nextId db.seats s1 hs1
        with ⟨s0, hs0, hid0, hst0, hocc0⟩ | hnew0
      · exact .inl ⟨s0, hs0, hid.trans hid0, hst.trans hst0, hocc.trans hocc0⟩
      · exact .inr ⟨hst.trans hnew0.1, hocc.trans hnew0.2⟩
    · exact .inr hnew

/-- One bulk entry never loses a label from the collection. -/
lemma upsertEntry_label_mono (db : DB) (e : String × Nat) (l : String)
    (hl : l ∈ db.seats.map (fun s => s.label)) :
    l ∈ (upsertEntry db e).seats.map (fun s => s.label) := by
  rw [upsertEntry_seats]
  by_cases hex : ∃ s ∈ db.seats, s.label = e.1 ++ toString e.2
  · rw [(upsertSeats_update e.1 e.2 (rowToType e.1) db.nextId db.seats hex).1]
    exact hl
  · push_neg at hex
    rw [upsertSeats_insert e.1 e.2 (rowToType e.1) db.nextId db.seats hex]
    simp only [List.map_append]
    exact List.mem_append_left _ hl

/-- The whole bulk never loses a label from the collection. -/
lemma applyUpserts_label_mono (es : List (String × Nat)) (db : DB) (l : String)
    (hl : l ∈ db.seats.map (fun s => s.label)) :
    l ∈ (applyUpserts db es).seats.map (fun s => s.label) := by
  induction es generalizing db with
  | nil => exact hl
  | cons e es ih =>
    rw [applyUpserts_cons]
    exact ih (upsertEntry db e) (upsertEntry_label_mono db e l hl)

/-- One bulk entry makes its own label present. -/
lemma upsertEntry_label_present (db : DB) (e : String × Nat) :
    e.1 ++ toString e.2 ∈ (upsertEntry db e).seats.map (fun s => s.label) := by
  rw [upsertEntry_seats]
  obtain ⟨s', hfind, -⟩ :=
    upsertSeats_find_entry e.1 e.2 (rowToType e.1) db.nextId db.seats
  have hmem := List.mem_of_find?_eq_some hfind
  have hlab := List.find?_some hfind
  simp only [decide_eq_true_eq] at hlab
  exact hlab ▸ List.mem_map_of_mem _ hmem

/-- After the bulk, every processed entry's label is present. -/
lemma applyUpserts_entry_present (es : List (String × Nat)) (db : DB) :
    ∀ e ∈ es, e.1 ++ toString e.2 ∈
      (applyUpserts db es).seats.map (fun s => s.label) := by
  induction es generalizing db with
  | nil => simp
  | cons e0 es ih =>
    intro e he
    rw [applyUpserts_cons]
    rcases List.mem_cons.mp he with rfl | hes
    · exact applyUpserts_label_mono es (upsertEntry db e) _
        (upsertEntry_label_present db e)
    · exact ih (upsertEntry db e0) e hes

/-- When every entry's label is already present, the bulk is pure update:
the label sequence of the collection is unchanged. -/
lemma applyUpserts_update_labels (es : List (String × Nat)) (db : DB)
    (h : ∀ e ∈ es, e.1 ++ toString e.2 ∈ db.seats.map (fun s => s.label)) :
    (applyUpserts db es).seats.map (fun s => s.label) =
      db.seats.map (fun s => s.label) := by
  induction es generalizing db with
  | nil => rfl
  | cons e es ih =>
    rw [applyUpserts_cons]
    have he := h e (List.mem_cons_self _ _)
    obtain ⟨s, hs, hsl⟩ := by
      simpa only [List.mem_map] using he
    have hstep := (upsertSeats_update e.1 e.2 (rowToType e.1) db.nextId db.seats
      ⟨s, hs, hsl⟩).1
    rw [← upsertEntry_seats] at hstep
    rw [ih (upsertEntry db e) (fun e' he' => hstep ▸ h e' (List.mem_cons_of_mem _ he')),
      hstep]

/-- Entries whose label differs from `l` never disturb the lookup of `l`. -/
lemma applyUpserts_find_other (es : List (String × Nat)) (db : DB) (l : String)
    (h : ∀ e ∈ es, e.1 ++ toString e.2 ≠ l) :
    (applyUpserts db es).seats.find? (fun s => s.label = l) =
      db.seats.find? (fun s => s.label = l) := by
  induction es generalizing db with
  | nil => rfl
  | cons e es ih =>
    rw [applyUpserts_cons,
      ih (upsertEntry db e) (fun e' he' => h e' (List.mem_cons_of_mem _ he')),
      upsertEntry_seats]
    exact upsertSeats_find_other e.1 e.2 (rowToType e.1) db.nextId db.seats l
      (fun hll => h e (List.mem_cons_self _ _) hll.symm)

/-- For a scheme without label collisions, after the bulk the first seat
carrying an entry's label has that entry's structural fields. -/
lemma applyUpserts_find_entry (es : List (String × Nat)) (db : DB)
    (hnd : (es.map (fun e => e.1 ++ toString e.2)).Nodup) :
    ∀ e ∈ es, ∃ s',
      (applyUpserts db es).seats.find? (fun s => s.label = e.1 ++ toString e.2)
          = some s' ∧
        s'.row = e.1 ∧ s'.number = e.2 ∧ s'.type = rowToType e.1 := by
  induction es generalizing db with
  | nil => simp
  | cons e0 es ih =>
    rw [List.map_cons, List.nodup_cons] at hnd
    intro e he
    rw [applyUpserts_cons]
    rcases List.mem_cons.mp he with rfl | hes
    · obtain ⟨s', hfind, hf⟩ :=
        upsertSeats_find_entry e.1 e.2 (rowToType e.1) db.nextId db.seats
      rw [← upsertEntry_seats] at hfind
      refine ⟨s', ?_, hf⟩
      rw [applyUpserts_find_other es (upsertEntry db e) _ ?_, hfind]
      intro e' he' hl
      exact hnd.1 (hl ▸ List.mem_map_of_mem _ he')
    · exact ih (upsertEntry db e0) hnd.2 e hes

/-! ## Lemmas about intake -/

/-- The intake route never touches the seats collection. -/
lemma intake_seats_eq (db : DB) (email phone : String) (amount : ℚ)
    (seatsRaw : String) (file : Option UploadedFile) :
    (createPendingBooking db email phone amount seatsRaw file).2.seats =
      db.seats := by
  cases file with
  | none => rfl
  | some f =>
    simp only [createPendingBooking]
    split
    · rfl
    · split
      · rfl
      · split
        · rfl
        · split <;> rfl

/-- The intake route leaves the bookings collection unchanged or appends a
single new booking at the end. -/
lemma intake_bookings (db : DB) (email phone : String) (amount : ℚ)
    (seatsRaw : String) (file : Option UploadedFile) :
    (createPendingBooking db email phone amount seatsRaw file).2.bookings =
        db.bookings ∨
      ∃ bk, (createPendingBooking db email phone amount seatsRaw file).2.bookings =
        db.bookings ++ [bk] := by
  cases file with
  | none => exact .inl rfl
  | some f =>
    simp only [createPendingBooking]
    split
    · exact .inl rfl
    · split
      · exact .inl rfl
      · split
        · exact .inl rfl
        · split
          · exact .inr ⟨_, rfl⟩
          · exact .inl rfl

/-- A first-match lookup that succeeds on a list still succeeds, with the
same result, after appending. -/
lemma find?_append_some {α : Type} (p : α → Bool) (l₁ l₂ : List α) (a : α)
    (h : l₁.find? p = some a) : (l₁ ++ l₂).find? p = some a := by
  induction l₁ with
  | nil => simp [List.find?] at h
  | cons x rest ih =>
    rw [List.cons_append]
    rw [List.find?_cons] at h ⊢
    cases hp : p x with
    | true => rw [hp] at h; simpa [hp] using h
    | false => rw [hp] at h; simpa [hp] using ih h

/-! ## The claims -/

/-- C2: if Approve fails for any reason — NotFound, InvalidState,
UnresolvedSeats, Conflict or a storage failure at commit — the set of
occupied seats is identical before and after the call, the target booking is
untouched, and in fact the whole store is exactly the pre-state: no
partially-occupied seat set is left. -/
theorem approve_atomic_on_failure :
    ∀ (db : DB) (bookingId : Nat) (notes : Option String) (commitOk : Bool)
      (e : ApproveErr),
      (approveBooking db bookingId notes commitOk).1 = .error e →
      (approveBooking db bookingId notes commitOk).2.seats.filter
          (fun s => s.status = "occupied") =
        db.seats.filter (fun s => s.status = "occupied") ∧
      (∀ b, findBooking db bookingId = some b →
        findBooking (approveBooking db bookingId notes commitOk).2 bookingId =
          some b) ∧
      (approveBooking db bookingId notes commitOk).2 = db := by
  intro db bookingId notes commitOk e h
  have hst := approve_state_of_error db bookingId notes commitOk e h
  exact ⟨by rw [hst], fun b hb => by rw [hst]; exact hb, hst⟩

/-- Witness for C2: approving a nonexistent booking id on the empty store
fails with NotFound and leaves the store untouched. -/
theorem approve_atomic_on_failure_witness :
    (approveBooking dbEmpty 5 none true).2 = dbEmpty :=
  (approve_atomic_on_failure dbEmpty 5 none true .notFound rfl).2.2

/-- C4: the four preconditions of Approve are checked in handler order, each
with its own distinguishable error: unknown id → NotFound; non-pending
status → InvalidState carrying the current status; unresolved labels →
UnresolvedSeats carrying exactly the requested labels that no seat carries;
non-available resolved seats → Conflict carrying exactly the labels of the
requested seats that are not available. -/
theorem approve_failure_modes :
    ∀ (db : DB) (bookingId : Nat) (notes : Option String) (commitOk : Bool),
      (findBooking db bookingId = none →
        (approveBooking db bookingId notes commitOk).1 = .error .notFound) ∧
      (∀ b, findBooking db bookingId = some b → b.status ≠ "pending" →
        (approveBooking db bookingId notes commitOk).1 =
          .error (.invalidState b.status)) ∧
      (∀ b, findBooking db bookingId = some b → b.status = "pending" →
        missingFor db b ≠ [] →
        (approveBooking db bookingId notes commitOk).1 =
            .error (.unresolvedSeats (missingFor db b)) ∧
          (∀ l, l ∈ missingFor db b ↔
            l ∈ b.seatLabels ∧ ∀ s ∈ db.seats, s.label ≠ l)) ∧
      (∀ b, findBooking db bookingId = some b → b.status = "pending" →
        missingFor db b = [] → occupiedFor db b ≠ [] →
        (approveBooking db bookingId notes commitOk).1 =
            .error (.conflict (occupiedFor db b)) ∧
          (∀ l, l ∈ occupiedFor db b ↔
            ∃ s ∈ db.seats, s.label = l ∧ l ∈ b.seatLabels ∧
              s.status ≠ "available")) := by
  intro db bookingId notes commitOk
  refine ⟨fun hf => by rw [approve_notFound db bookingId notes commitOk hf],
    fun b hf h1 => by rw [approve_invalidState db bookingId notes commitOk b hf h1],
    fun b hf h1 h2 =>
      ⟨by rw [approve_unresolved db bookingId notes commitOk b hf h1 h2],
        fun l => mem_missingFor db b l⟩,
    fun b hf h1 h2 h3 =>
      ⟨by rw [approve_conflict db bookingId notes commitOk b hf h1 h2 h3],
        fun l => mem_occupiedFor db b l⟩⟩

/-- Witness for C4: re-approving an already-approved booking answers
InvalidState reporting the current status (Scenario D). -/
theorem approve_failure_modes_witness :
    (approveBooking dbDone 30 none true).1 = .error (.invalidState "approved") :=
  (approve_failure_modes dbDone 30 none true).2.1 bookingDone rfl (by decide)

/-- C8: reject answers NotFound for an unknown id, InvalidState with the
current status for a non-pending booking, and on a pending booking succeeds,
rejecting it and setting the admin note exactly when the supplied note is
truthy; in every case the seats collection is byte-for-byte untouched. -/
theorem reject_contract :
    ∀ (db : DB) (bookingId : Nat) (notes : Option String),
      (rejectBooking db bookingId notes).2.seats = db.seats ∧
      (findBooking db bookingId = none →
        rejectBooking db bookingId notes = (.error .notFound, db)) ∧
      (∀ b, findBooking db bookingId = some b → b.status ≠ "pending" →
        rejectBooking db bookingId notes =
          (.error (.invalidState b.status), db)) ∧
      (∀ b, findBooking db bookingId = some b → b.status = "pending" →
        (rejectBooking db bookingId notes).1 = .ok () ∧
        ∃ b', findBooking (rejectBooking db bookingId notes).2 bookingId =
            some b' ∧ b'.status = "rejected" ∧
          b'.adminNotes = (if truthyNote notes then notes else b.adminNotes)) := by
  intro db bookingId notes
  refine ⟨reject_seats_eq db bookingId notes,
    reject_notFound db bookingId notes,
    fun b hf h1 => reject_invalidState db bookingId notes b hf h1,
    fun b hf h1 => ?_⟩
  rw [reject_of_pending db bookingId notes b hf h1]
  refine ⟨rfl, rejectedBooking b notes, ?_, rfl, rfl⟩
  rw [findBooking_rejectMap db b notes bookingId, hf]
  simp

/-- Witness for C8: rejecting the pending booking 20 succeeds. -/
theorem reject_contract_witness :
    (rejectBooking dbRace 20 (some "dup")).1 = .ok () :=
  ((reject_contract dbRace 20 (some "dup")).2.2.2 bookingRace1 rfl (by decide)).1

/-- C3 (amended): approving a pending booking whose labels all resolve to
available seats succeeds with the requested labels as payload, occupies and
links every requested seat, and saves the booking approved with
`resolvedSeatRefs` holding the ids of the registry seats carrying a requested
label, in seat-collection order — one entry per matching registry seat, not
necessarily aligned with the requested order — and with the admin note set
exactly when a truthy note is supplied. -/
theorem approve_success_postcondition :
    ∀ (db : DB) (bookingId : Nat) (notes : Option String) (b : Booking),
      findBooking db bookingId = some b → b.status = "pending" →
      (∀ l ∈ b.seatLabels, ∃ s ∈ db.seats, s.label = l) →
      (∀ s ∈ db.seats, s.label ∈ b.seatLabels → s.status = "available") →
      (approveBooking db bookingId notes true).1 = .ok b.seatLabels ∧
      (∀ s ∈ db.seats, s.label ∈ b.seatLabels →
        occupyFor b.id s ∈ (approveBooking db bookingId notes true).2.seats) ∧
      (∃ b', findBooking (approveBooking db bookingId notes true).2 bookingId =
          some b' ∧
        b'.status = "approved" ∧
        b'.seatIds = (seatsFor db b).map (fun s => s.id) ∧
        b'.adminNotes = (if truthyNote notes then notes else b.adminNotes)) := by
  intro db bookingId notes b hf h1 hres hava
  have h2 : missingFor db b = [] := (missingFor_eq_nil db b).mpr hres
  have h3 : occupiedFor db b = [] := (occupiedFor_eq_nil db b).mpr hava
  have happ := approve_of_preconds db bookingId notes b hf h1 h2 h3
  rw [happ]
  refine ⟨rfl, ?_, ?_⟩
  · intro s hs hl
    show occupyFor b.id s ∈ (approveCommit db b notes).seats
    refine List.mem_map.mpr ⟨s, hs, ?_⟩
    have hc : b.seatLabels.contains s.label := by
      simpa [List.elem_iff] using hl
    split
    · rfl
    · next hcc => exact absurd hc hcc
  · refine ⟨approvedBooking db b notes, ?_, rfl, rfl, rfl⟩
    show findBooking (approveCommit db b notes) bookingId = _
    rw [findBooking_approveCommit db b notes bookingId, hf]
    simp

/-- Witness for C3: Scenario B shaped — approving booking 10, which requests
A2 and A1, succeeds. -/
theorem approve_success_postcondition_witness :
    (approveBooking dbRev 10 none true).1 = .ok ["A2", "A1"] :=
  (approve_success_postcondition dbRev 10 none bookingRev rfl rfl
    (by decide) (by decide)).1

/-- Counterexample to C3 as stated: the saved `seatIds` come back in
seat-collection order, not in the requested order — booking 10 requests
["A2","A1"] yet is saved with `seatIds` aligned to [A1, A2] — and a
duplicated requested label ("A1" twice for booking 11) yields a single
entry, not one per requested label. -/
theorem approve_seatIds_order_counterexample :
    (∃ b', findBooking (approveBooking dbRev 10 none true).2 10 = some b' ∧
      b'.status = "approved" ∧
      ¬ resolvedInRequestedOrder dbRev bookingRev.seatLabels b'.seatIds) ∧
    (∃ b', findBooking (approveBooking dbDup 11 none true).2 11 = some b' ∧
      b'.status = "approved" ∧
      b'.seatIds.length ≠ bookingDup.seatLabels.length) := by
  constructor
  · exact ⟨approvedBooking dbRev bookingRev none, by decide, rfl, by decide⟩
  · exact ⟨approvedBooking dbDup bookingDup none, by decide, rfl, by decide⟩

/-- C10: a successful approve changes nothing outside its own footprint —
every seat whose label is not requested by the approved booking keeps its
exact document (at its position), every booking other than the approved one
keeps its exact document, and the uploads bucket and the id counter are
untouched. -/
theorem approve_success_frame :
    ∀ (db : DB) (bookingId : Nat) (notes : Option String) (commitOk : Bool)
      (out : List String),
      (approveBooking db bookingId notes commitOk).1 = .ok out →
      ∃ booking, findBooking db bookingId = some booking ∧
        (approveBooking db bookingId notes commitOk).2.seats.length =
          db.seats.length ∧
        (∀ (i : Nat) (s : Seat), db.seats[i]? = some s →
          s.label ∉ booking.seatLabels →
          (approveBooking db bookingId notes commitOk).2.seats[i]? = some s) ∧
        (approveBooking db bookingId notes commitOk).2.bookings.length =
          db.bookings.length ∧
        (∀ (i : Nat) (b : Booking), db.bookings[i]? = some b →
          b.id ≠ bookingId →
          (approveBooking db bookingId notes commitOk).2.bookings[i]? =
            some b) ∧
        (approveBooking db bookingId notes commitOk).2.uploads = db.uploads ∧
        (approveBooking db bookingId notes commitOk).2.nextId = db.nextId := by
  intro db bookingId notes commitOk out hok
  rcases approve_cases db bookingId notes commitOk with ⟨e, he⟩ |
    ⟨booking, hf, h1, h2, h3, hck, he⟩
  · rw [he] at hok
    exact absurd hok (by simp)
  · have hid := findBooking_id db bookingId booking hf
    refine ⟨booking, hf, ?_, ?_, ?_, ?_, ?_, ?_⟩ <;> rw [he]
    · exact List.length_map _ _
    · intro i s hi hnl
      show (List.map _ db.seats)[i]? = some s
      rw [List.getElem?_map, hi]
      have hc : ¬ (booking.seatLabels.contains s.label = true) :=
        fun hcc => hnl (List.elem_iff.mp hcc)
      show some (if booking.seatLabels.contains s.label = true then
        occupyFor booking.id s else s) = some s
      rw [if_neg hc]
    · exact List.length_map _ _
    · intro i b hi hbi
      show (List.map _ db.bookings)[i]? = some b
      rw [List.getElem?_map, hi]
      have hb : ¬ (b.id = booking.id) := fun hbb => hbi (hbb.trans hid)
      show some (if b.id = booking.id then
        approvedBooking db booking notes else b) = some b
      rw [if_neg hb]
    · rfl
    · rfl

/-- Witness for C10: the successful approve of booking 10 leaves the uploads
bucket unchanged. -/
theorem approve_success_frame_witness :
    (approveBooking dbRev 10 none true).2.uploads = dbRev.uploads := by
  obtain ⟨bk, -, -, -, -, -, hupl, -⟩ :=
    approve_success_frame dbRev 10 none true ["A2", "A1"] rfl
  exact hupl

/-- C1 (amended): every operation of the system except the administrative
occupy route preserves the seat invariant `occupiedBy ≠ null ⟺ status =
occupied` on every seat; the occupy route `$set`s only `status: "occupied"`
and never touches the occupant link, so it preserves only the direction
`occupiedBy ≠ null → status = occupied` and can leave an occupied seat with
a null link. -/
theorem seat_invariant_preservation :
    (∀ (op : Op) (db : DB), isOccupyOp op = false →
      seatInv db → seatInv (applyOp op db)) ∧
    (∀ (label : String) (db : DB), seatInvLink db →
      seatInvLink (applyOp (.occupy label) db)) := by
  constructor
  · intro op db hop hinv
    cases op with
    | init rows perRow =>
      intro s' hs'
      rcases applyUpserts_mem _ db s' hs' with ⟨s, hs, -, hst, hocc⟩ |
        ⟨hst, hocc⟩
      · rw [hst, hocc]; exact hinv s hs
      · rw [hst, hocc]; simp
    | occupy label => simp [isOccupyOp] at hop
    | release label =>
      show seatInv (releaseSeat db label).2
      unfold releaseSeat
      cases hupd : updateFirstSeat
          (fun s => { s with status := "available", occupiedByBookingId := none })
          (jsToUpper label) db.seats with
      | none => exact hinv
      | some seats' =>
        intro s' hs'
        rcases mem_updateFirstSeat _ _ _ _ hupd s' hs' with hold | ⟨s, -, rfl⟩
        · exact hinv s' hold
        · simp
    | intake email phone amount seatsRaw file =>
      intro s' hs'
      rw [show (applyOp (.intake email phone amount seatsRaw file) db).seats =
        db.seats from intake_seats_eq db email phone amount seatsRaw file] at hs'
      exact hinv s' hs'
    | approve bookingId notes commitOk =>
      rcases approve_cases db bookingId notes commitOk with ⟨e, he⟩ |
        ⟨bk, hfk, hp, hm, ho, hck, he⟩
      · show seatInv (approveBooking db bookingId notes commitOk).2
        rw [he]; exact hinv
      · show seatInv (approveBooking db bookingId notes commitOk).2
        rw [he]
        intro s' hs'
        obtain ⟨s, hs, rfl⟩ := List.mem_map.mp hs'
        by_cases hc : bk.seatLabels.contains s.label = true
        · rw [if_pos hc]; simp [occupyFor]
        · rw [if_neg hc]; exact hinv s hs
    | reject bookingId notes =>
      intro s' hs'
      rw [show (applyOp (.reject bookingId notes) db).seats = db.seats from
        reject_seats_eq db bookingId notes] at hs'
      exact hinv s' hs'
    | getSeats => exact hinv
    | getSeat label => exact hinv
    | getScreenshot fileId => exact hinv
  · intro label db hlink
    show seatInvLink (occupySeat db label).2
    unfold occupySeat
    cases hupd : updateFirstSeat (fun s => { s with status := "occupied" })
        (jsToUpper label) db.seats with
    | none => exact hlink
    | some seats' =>
      intro s' hs'
      rcases mem_updateFirstSeat _ _ _ _ hupd s' hs' with hold | ⟨s, -, rfl⟩
      · exact hlink s' hold
      · intro _; rfl

/-- Witness for C1 (amended): releasing the occupied seat A1 keeps the
invariant. -/
theorem seat_invariant_preservation_witness :
    seatInv (applyOp (.release "A1") dbDone) :=
  seat_invariant_preservation.1 (.release "A1") dbDone rfl (by decide)

/-- Counterexample to C1 as stated: the store holding one available seat A1
satisfies the invariant, but after the administrative occupy of A1 the seat
is occupied with a null occupant link. -/
theorem occupy_breaks_seat_invariant :
    seatInv dbOneFree ∧ ¬ seatInv (applyOp (.occupy "A1") dbOneFree) :=
  ⟨by decide, by decide⟩

/-- C6: once a booking's status is approved or rejected, no operation of the
system — approve, reject, intake, init, occupy, release or any read —
changes it. -/
theorem booking_no_resurrection :
    ∀ (op : Op) (db : DB) (bookingId : Nat) (b : Booking),
      findBooking db bookingId = some b →
      b.status = "approved" ∨ b.status = "rejected" →
      ∃ b', findBooking (applyOp op db) bookingId = some b' ∧
        b'.status = b.status := by
  intro op db bookingId b hf hterm
  cases op with
  | init rows perRow =>
    refine ⟨b, ?_, rfl⟩
    simp only [applyOp]
    unfold findBooking at hf ⊢
    rw [(init_frame db rows perRow).1]
    exact hf
  | occupy label =>
    refine ⟨b, ?_, rfl⟩
    simp only [applyOp]
    unfold findBooking at hf ⊢
    rw [(occupy_frame db label).1]
    exact hf
  | release label =>
    refine ⟨b, ?_, rfl⟩
    simp only [applyOp]
    unfold findBooking at hf ⊢
    rw [(release_frame db label).1]
    exact hf
  | intake email phone amount seatsRaw file =>
    refine ⟨b, ?_, rfl⟩
    simp only [applyOp]
    unfold findBooking at hf ⊢
    rcases intake_bookings db email phone amount seatsRaw file with hsame |
      ⟨bk, happ⟩
    · rw [hsame]; exact hf
    · rw [happ]; exact find?_append_some _ _ _ _ hf
  | approve bookingId2 notes commitOk =>
    rcases approve_cases db bookingId2 notes commitOk with ⟨e, he⟩ |
      ⟨bk, hfk, hp, hm, ho, hck, he⟩
    · refine ⟨b, ?_, rfl⟩
      show findBooking (approveBooking db bookingId2 notes commitOk).2
          bookingId = some b
      rw [he]
      exact hf
    · have hbid := findBooking_id db bookingId b hf
      have hbkid := findBooking_id db bookingId2 bk hfk
      by_cases hcase : b.id = bk.id
      · exfalso
        have hids : bookingId = bookingId2 := by rw [← hbid, hcase, hbkid]
        rw [hids, hfk] at hf
        obtain rfl := Option.some.inj hf
        rcases hterm with h | h <;> rw [hp] at h <;> simp at h
      · refine ⟨b, ?_, rfl⟩
        show findBooking (approveBooking db bookingId2 notes commitOk).2
            bookingId = some b
        rw [he]
        show findBooking (approveCommit db bk notes) bookingId = some b
        rw [findBooking_approveCommit db bk notes bookingId, hf]
        show some (if b.id = bk.id then approvedBooking db bk notes else b) =
          some b
        rw [if_neg hcase]
  | reject bookingId2 notes =>
    cases hfk : findBooking db bookingId2 with
    | none =>
      refine ⟨b, ?_, rfl⟩
      show findBooking (rejectBooking db bookingId2 notes).2 bookingId = some b
      rw [reject_notFound db bookingId2 notes hfk]
      exact hf
    | some bk =>
      by_cases hp : bk.status ≠ "pending"
      · refine ⟨b, ?_, rfl⟩
        show findBooking (rejectBooking db bookingId2 notes).2 bookingId = some b
        rw [reject_invalidState db bookingId2 notes bk hfk hp]
        exact hf
      · rw [not_not] at hp
        have hbid := findBooking_id db bookingId b hf
        have hbkid := findBooking_id db bookingId2 bk hfk
        by_cases hcase : b.id = bk.id
        · exfalso
          have hids : bookingId = bookingId2 := by rw [← hbid, hcase, hbkid]
          rw [hids, hfk] at hf
          obtain rfl := Option.some.inj hf
          rcases hterm with h | h <;> rw [hp] at h <;> simp at h
        · refine ⟨b, ?_, rfl⟩
          show findBooking (rejectBooking db bookingId2 notes).2 bookingId =
            some b
          rw [reject_of_pending db bookingId2 notes bk hfk hp]
          rw [findBooking_rejectMap db bk notes bookingId, hf]
          show some (if b.id = bk.id then rejectedBooking bk notes else b) =
            some b
          rw [if_neg hcase]
  | getSeats => exact ⟨b, hf, rfl⟩
  | getSeat label => exact ⟨b, hf, rfl⟩
  | getScreenshot fileId => exact ⟨b, hf, rfl⟩

/-- Witness for C6: re-rejecting the approved booking 30 leaves its status
approved. -/
theorem booking_no_resurrection_witness :
    ∃ b', findBooking (applyOp (.reject 30 none) dbDone) 30 = some b' ∧
      b'.status = "approved" :=
  booking_no_resurrection (.reject 30 none) dbDone 30 bookingDone rfl
    (.inl rfl)

/-- C7: inventory initialization is idempotent — running the same scheme a
second time reports the same total seat count; every pre-existing seat
survives with its id, status and occupant link untouched (in particular no
occupied seat becomes available); and, for a scheme whose generated labels
are distinct, the first seat carrying each scheme label ends up with that
entry's row, number and tier. -/
theorem init_idempotent :
    ∀ (db : DB) (rowsBody : Option (List String)) (perRowBody : Option Int),
      (initializeInventory db rowsBody perRowBody).1 =
        (initializeInventory (initializeInventory db rowsBody perRowBody).2
          rowsBody perRowBody).1 ∧
      (∀ s ∈ db.seats,
        ∃ s' ∈ (initializeInventory db rowsBody perRowBody).2.seats,
          s'.id = s.id ∧ s'.status = s.status ∧
            s'.occupiedByBookingId = s.occupiedByBookingId) ∧
      (((schemeEntries (initScheme rowsBody perRowBody).1
            (initScheme rowsBody perRowBody).2).map
          (fun e => e.1 ++ toString e.2)).Nodup →
        ∀ e ∈ schemeEntries (initScheme rowsBody perRowBody).1
            (initScheme rowsBody perRowBody).2,
          ∃ s', (initializeInventory db rowsBody perRowBody).2.seats.find?
              (fun s => s.label = e.1 ++ toString e.2) = some s' ∧
            s'.row = e.1 ∧ s'.number = e.2 ∧ s'.type = rowToType e.1) := by
  intro db rowsBody perRowBody
  refine ⟨?_, applyUpserts_oldmem _ db, fun hnd e he =>
    applyUpserts_find_entry _ db hnd e he⟩
  show (applyUpserts db _).seats.length =
    (applyUpserts (applyUpserts db _) _).seats.length
  have hpres := applyUpserts_entry_present
    (schemeEntries (initScheme rowsBody perRowBody).1
      (initScheme rowsBody perRowBody).2) db
  have heq := applyUpserts_update_labels
    (schemeEntries (initScheme rowsBody perRowBody).1
      (initScheme rowsBody perRowBody).2)
    (applyUpserts db (schemeEntries (initScheme rowsBody perRowBody).1
      (initScheme rowsBody perRowBody).2)) hpres
  have hlen := congrArg List.length heq
  simpa using hlen.symm

/-- Witness for C7: initializing rows ["A"] with 2 seats per row places seat
A1 with row A, number 1, primary tier. -/
theorem init_idempotent_witness :
    ∃ s', (initializeInventory dbEmpty (some ["A"]) (some 2)).2.seats.find?
        (fun s => s.label = "A" ++ toString 1) = some s' ∧
      s'.row = "A" ∧ s'.number = 1 ∧ s'.type = rowToType "A" := by
  have h := (init_idempotent dbEmpty (some ["A"]) (some 2)).2.2 (by decide)
    ("A", 1) (by decide)
  exact h

/-- C5: two Approve calls for different pending bookings whose requested
labels share a label `l` (all labels resolving, all requested seats
available), run in either serialization the storage's transactions admit
(the hypotheses are symmetric in the two bookings, so both orders are
covered): the first call succeeds, the second reports Conflict naming `l`,
leaves the store exactly as the first call left it, and every seat labelled
`l` is occupied by the first booking only — never by both. -/
theorem concurrent_approve_shared_seat :
    ∀ (db : DB) (id1 id2 : Nat) (b1 b2 : Booking) (l : String),
      findBooking db id1 = some b1 → findBooking db id2 = some b2 →
      id1 ≠ id2 → b1.status = "pending" → b2.status = "pending" →
      l ∈ b1.seatLabels → l ∈ b2.seatLabels →
      (∀ l' ∈ b1.seatLabels, ∃ s ∈ db.seats, s.label = l') →
      (∀ l' ∈ b2.seatLabels, ∃ s ∈ db.seats, s.label = l') →
      (∀ s ∈ db.seats, s.label ∈ b1.seatLabels ∨ s.label ∈ b2.seatLabels →
        s.status = "available") →
      (approveBooking db id1 none true).1 = .ok b1.seatLabels ∧
      (∃ occ, (approveBooking (approveBooking db id1 none true).2 id2
          none true).1 = .error (.conflict occ) ∧ l ∈ occ) ∧
      (approveBooking (approveBooking db id1 none true).2 id2 none true).2 =
        (approveBooking db id1 none true).2 ∧
      (∀ s ∈ (approveBooking (approveBooking db id1 none true).2 id2
          none true).2.seats,
        s.label = l → s.occupiedByBookingId = some id1) := by
  intro db id1 id2 b1 b2 l hf1 hf2 hne h1p h2p hl1 hl2 hres1 hres2 hava
  have hm1 : missingFor db b1 = [] := (missingFor_eq_nil db b1).mpr hres1
  have ho1 : occupiedFor db b1 = [] := (occupiedFor_eq_nil db b1).mpr
    (fun s hs hl => hava s hs (.inl hl))
  have happ1 := approve_of_preconds db id1 none b1 hf1 h1p hm1 ho1
  have hpost1 : (approveBooking db id1 none true).2 = approveCommit db b1 none := by
    rw [happ1]
  have hid1 : b1.id = id1 := findBooking_id db id1 b1 hf1
  have hid2 : b2.id = id2 := findBooking_id db id2 b2 hf2
  have hf2' : findBooking (approveCommit db b1 none) id2 = some b2 := by
    rw [findBooking_approveCommit db b1 none id2, hf2]
    show some (if b2.id = b1.id then approvedBooking db b1 none else b2) =
      some b2
    have hne' : ¬ (b2.id = b1.id) := by
      rw [hid1, hid2]; exact fun h => hne h.symm
    rw [if_neg hne']
  have hres2' : ∀ l' ∈ b2.seatLabels,
      ∃ s ∈ (approveCommit db b1 none).seats, s.label = l' := by
    intro l' hl'
    obtain ⟨s, hs, rfl⟩ := hres2 l' hl'
    refine ⟨if b1.seatLabels.contains s.label = true then occupyFor b1.id s
      else s, ?_, ?_⟩
    · exact List.mem_map_of_mem _ hs
    · split <;> rfl
  have hm2 : missingFor (approveCommit db b1 none) b2 = [] :=
    (missingFor_eq_nil _ b2).mpr hres2'
  obtain ⟨s0, hs0, hs0l⟩ := hres2 l hl2
  have hs0c : b1.seatLabels.contains s0.label = true :=
    List.elem_iff.mpr (by rw [hs0l]; exact hl1)
  have hu : (if b1.seatLabels.contains s0.label = true then occupyFor b1.id s0
      else s0) = occupyFor b1.id s0 := if_pos hs0c
  have hocc_mem : l ∈ occupiedFor (approveCommit db b1 none) b2 := by
    refine (mem_occupiedFor _ b2 l).mpr ⟨occupyFor b1.id s0, ?_, hs0l, hl2, ?_⟩
    · have hmem : (if b1.seatLabels.contains s0.label = true then
          occupyFor b1.id s0 else s0) ∈ (approveCommit db b1 none).seats :=
        List.mem_map_of_mem _ hs0
      rw [hu] at hmem
      exact hmem
    · simp [occupyFor]
  have ho2ne : occupiedFor (approveCommit db b1 none) b2 ≠ [] :=
    List.ne_nil_of_mem hocc_mem
  have happ2 := approve_conflict (approveCommit db b1 none) id2 none true b2
    hf2' h2p hm2 ho2ne
  refine ⟨by rw [happ1], ⟨occupiedFor (approveCommit db b1 none) b2, ?_,
    hocc_mem⟩, ?_, ?_⟩
  · rw [hpost1, happ2]
  · rw [hpost1, happ2]
  · rw [hpost1, happ2]
    intro s hs hsl
    show s.occupiedByBookingId = some id1
    obtain ⟨t, ht, rfl⟩ := List.mem_map.mp hs
    by_cases hc : b1.seatLabels.contains t.label = true
    · rw [if_pos hc]
      show some b1.id = some id1
      rw [hid1]
    · rw [if_neg hc] at hsl ⊢
      exact absurd (List.elem_iff.mpr (by rw [hsl]; exact hl1)) hc

/-- Witness for C5: bookings 20 and 21 both request the single seat A1;
approving 20 then 21 gives one success and one Conflict on A1. -/
theorem concurrent_approve_shared_seat_witness :
    (approveBooking dbRace 20 none true).1 = .ok ["A1"] :=
  (concurrent_approve_shared_seat dbRace 20 21 bookingRace1 bookingRace2 "A1"
    rfl rfl (by decide) rfl rfl (by decide) (by decide) (by decide)
    (by decide) (by decide)).1

/-- Any intake whose record validation fails, or that trips the handler's
required-field check, errors out without creating a booking. -/
lemma intake_invalid (db : DB) (email phone : String) (amount : ℚ)
    (seatsRaw : String) (file : Option UploadedFile)
    (hv : bookingValidates email phone amount = false ∨ email = "" ∨
      phone = "" ∨ amount = 0 ∨ seatsRaw = "") :
    (∃ e, (createPendingBooking db email phone amount seatsRaw file).1 =
      .error e) ∧
    (createPendingBooking db email phone amount seatsRaw file).2.bookings =
      db.bookings := by
  cases file with
  | none => exact ⟨⟨.missingFields, rfl⟩, rfl⟩
  | some f =>
    simp only [createPendingBooking]
    by_cases hmt : mimetypeOk f.mimetype = true
    · rw [if_neg (fun hc => hc hmt)]
      by_cases hsz : f.size > maxFileSize
      · rw [if_pos hsz]; exact ⟨⟨_, rfl⟩, rfl⟩
      · rw [if_neg hsz]
        by_cases hmiss : email = "" ∨ phone = "" ∨ amount = 0 ∨ seatsRaw = ""
        · rw [if_pos hmiss]; exact ⟨⟨_, rfl⟩, rfl⟩
        · rw [if_neg hmiss]
          have hvf : bookingValidates email phone amount = false := by
            rcases hv with h | h | h | h | h
            · exact h
            · exact absurd (Or.inl h) hmiss
            · exact absurd (Or.inr (Or.inl h)) hmiss
            · exact absurd (Or.inr (Or.inr (Or.inl h))) hmiss
            · exact absurd (Or.inr (Or.inr (Or.inr h))) hmiss
          rw [if_neg (by simp [hvf])]
          exact ⟨⟨_, rfl⟩, rfl⟩
    · rw [if_pos hmt]
      exact ⟨⟨_, rfl⟩, rfl⟩

/-- C9 (amended): the attachment filter (non-image type, over 5 MB),
the handler's required-field check (missing attachment, empty email, empty
phone, zero amount, empty raw seats string) and the record validation
(malformed email or phone after normalization, amount below 1) each make the
intake fail without creating a booking; when all of them pass, a pending
booking is created from the parsed seat labels with no check that those
labels name existing or available seats (the store's seats are arbitrary
here).  The raw seats string is what the required-field check inspects: a
non-empty string parsing to an empty label list is accepted. -/
theorem intake_validation :
    ∀ (db : DB) (email phone : String) (amount : ℚ) (seatsRaw : String)
      (file : Option UploadedFile),
      (file = none →
        (createPendingBooking db email phone amount seatsRaw file).1 =
          .error .missingFields ∧
        (createPendingBooking db email phone amount seatsRaw file).2 = db) ∧
      (∀ f, file = some f → ¬ mimetypeOk f.mimetype →
        (createPendingBooking db email phone amount seatsRaw file).1 =
          .error .attachmentType ∧
        (createPendingBooking db email phone amount seatsRaw file).2 = db) ∧
      (∀ f, file = some f → mimetypeOk f.mimetype → f.size > maxFileSize →
        (createPendingBooking db email phone amount seatsRaw file).1 =
          .error .attachmentTooLarge ∧
        (createPendingBooking db email phone amount seatsRaw file).2 = db) ∧
      (¬ emailMatches (jsToLower (jsTrim email)) →
        (∃ e, (createPendingBooking db email phone amount seatsRaw file).1 =
          .error e) ∧
        (createPendingBooking db email phone amount seatsRaw file).2.bookings =
          db.bookings) ∧
      (¬ phoneMatches (jsTrim phone) →
        (∃ e, (createPendingBooking db email phone amount seatsRaw file).1 =
          .error e) ∧
        (createPendingBooking db email phone amount seatsRaw file).2.bookings =
          db.bookings) ∧
      (amount < 1 →
        (∃ e, (createPendingBooking db email phone amount seatsRaw file).1 =
          .error e) ∧
        (createPendingBooking db email phone amount seatsRaw file).2.bookings =
          db.bookings) ∧
      (seatsRaw = "" →
        (∃ e, (createPendingBooking db email phone amount seatsRaw file).1 =
          .error e) ∧
        (createPendingBooking db email phone amount seatsRaw file).2.bookings =
          db.bookings) ∧
      (∀ f, file = some f → mimetypeOk f.mimetype → f.size ≤ maxFileSize →
        email ≠ "" → phone ≠ "" → seatsRaw ≠ "" →
        bookingValidates email phone amount = true →
        ∃ bid bk,
          (createPendingBooking db email phone amount seatsRaw file).1 =
            .ok bid ∧
          (createPendingBooking db email phone amount seatsRaw file).2.bookings
            = db.bookings ++ [bk] ∧
          bk.id = bid ∧ bk.status = "pending" ∧
          bk.seatLabels = parseSeatLabels seatsRaw ∧ bk.amount = amount ∧
          bk.email = jsToLower (jsTrim email) ∧ bk.phone = jsTrim phone) := by
  intro db email phone amount seatsRaw file
  refine ⟨?_, ?_, ?_, ?_, ?_, ?_, ?_, ?_⟩
  · rintro rfl
    exact ⟨rfl, rfl⟩
  · rintro f rfl hmt
    simp only [createPendingBooking]
    rw [if_pos hmt]
    exact ⟨rfl, rfl⟩
  · rintro f rfl hmt hsz
    simp only [createPendingBooking]
    rw [if_neg (fun hc => hc hmt), if_pos hsz]
    exact ⟨rfl, rfl⟩
  · intro hem
    refine intake_invalid db email phone amount seatsRaw file (.inl ?_)
    simp only [bookingValidates]
    simp [hem]
  · intro hph
    refine intake_invalid db email phone amount seatsRaw file (.inl ?_)
    simp only [bookingValidates]
    simp [hph]
  · intro hamt
    refine intake_invalid db email phone amount seatsRaw file (.inl ?_)
    simp only [bookingValidates]
    simp only [decide_eq_false_iff_not]
    rintro ⟨-, -, hge⟩
    exact absurd hge (not_le.mpr hamt)
  · intro hsr
    exact intake_invalid db email phone amount seatsRaw file
      (.inr (.inr (.inr (.inr hsr))))
  · rintro f rfl hmt hsz hem hph hsr hval
    have hvp := of_decide_eq_true hval
    obtain ⟨-, -, hamt⟩ := hvp
    have hamt0 : ¬ (amount = 0) := fun h0 => by
      rw [h0] at hamt
      exact absurd hamt (by norm_num)
    simp only [createPendingBooking]
    rw [if_neg (fun hc => hc hmt), if_neg (not_lt.mpr hsz),
      if_neg (by simp [hem, hph, hsr, hamt0]), if_pos hval]
    exact ⟨db.nextId + 1, _, rfl, rfl, rfl, rfl, rfl, rfl, rfl, rfl⟩

/-- Witness for C9 (amended): a fully valid intake creates a pending
booking for the parsed label list. -/
theorem intake_validation_witness :
    ∃ bid bk,
      (createPendingBooking dbEmpty "a@b.c" "9876543210" 5 "A1"
        (some fileOk)).1 = .ok bid ∧
      (createPendingBooking dbEmpty "a@b.c" "9876543210" 5 "A1"
        (some fileOk)).2.bookings = dbEmpty.bookings ++ [bk] ∧
      bk.id = bid ∧ bk.status = "pending" ∧
      bk.seatLabels = parseSeatLabels "A1" ∧ bk.amount = 5 ∧
      bk.email = jsToLower (jsTrim "a@b.c") ∧ bk.phone = jsTrim "9876543210" :=
  (intake_validation dbEmpty "a@b.c" "9876543210" 5 "A1"
    (some fileOk)).2.2.2.2.2.2.2 fileOk rfl (by decide) (by decide)
    (by decide) (by decide) (by decide) (by decide)

/-- Counterexample to C9 as stated: the raw seats string `","` parses to an
empty requested-seat list, yet the intake succeeds and creates a pending
booking with an empty seat list; and the positive amount 1/2 — rejected
neither by the truthiness check (nonzero) nor named by any of the claim's
failure conditions — makes the intake fail at record validation
(`min: 1`). -/
theorem intake_counterexample :
    (parseSeatLabels "," = [] ∧
      (createPendingBooking dbEmpty "a@b.c" "9876543210" 5 ","
        (some fileOk)).1 = .ok 1 ∧
      ∃ bk, (createPendingBooking dbEmpty "a@b.c" "9876543210" 5 ","
          (some fileOk)).2.bookings = [bk] ∧
        bk.status = "pending" ∧ bk.seatLabels = []) ∧
    (0 < halfAmount ∧ halfAmount < 1 ∧
      (createPendingBooking dbEmpty "a@b.c" "9876543210" halfAmount "A1"
        (some fileOk)).1 = .error .saveFailed ∧
      (createPendingBooking dbEmpty "a@b.c" "9876543210" halfAmount "A1"
        (some fileOk)).2.bookings = []) := by
  refine ⟨⟨by decide, rfl, ?_⟩, by decide, by decide, rfl, rfl⟩
  exact ⟨_, rfl, rfl, by decide⟩

end Tvt
